import Mathlib

/-!
Shallow embedding of `aiohttp/web_jobs.py` (classes `Job` and `JobRunner`).

Time is modelled discretely by `ETime` (a natural number of ticks, or `inf`
for "never").  The external scheduler's behaviour for one task is captured by
`TaskSpec`: the instant at which the computation would finish on its own, the
outcome it would then produce, and how long after a cancellation request it
takes to acknowledge the cancellation (`inf` = the computation ignores
cancellation).  Every operation of the source is translated to a pure function
that takes the instant at which it is invoked and the earliest instant at
which `task.cancel()` was previously requested, and returns its return
instant, its result or raised exception, and the events it reported.
-/

/-- Extended time: a finite tick count or infinity ("never"). -/
inductive ETime where
  | fin : Nat → ETime
  | inf : ETime
deriving DecidableEq, Repr

namespace ETime

/-- Order on extended times. -/
def le : ETime → ETime → Prop
  | fin a, fin b => a ≤ b
  | fin _, inf => True
  | inf, fin _ => False
  | inf, inf => True

instance : LE ETime := ⟨ETime.le⟩

instance decLe : (a b : ETime) → Decidable (ETime.le a b)
  | fin a, fin b => inferInstanceAs (Decidable (a ≤ b))
  | fin _, inf => Decidable.isTrue trivial
  | inf, fin _ => Decidable.isFalse id
  | inf, inf => Decidable.isTrue trivial

instance (a b : ETime) : Decidable (a ≤ b) := decLe a b

/-- Addition of durations; `inf` is absorbing. -/
def add : ETime → ETime → ETime
  | fin a, fin b => fin (a + b)
  | fin _, inf => inf
  | inf, _ => inf

instance : Add ETime := ⟨ETime.add⟩

/-- Minimum of two extended times. -/
def emin : ETime → ETime → ETime
  | fin a, fin b => fin (Nat.min a b)
  | fin a, inf => fin a
  | inf, b => b

instance : Min ETime := ⟨emin⟩

/-- Maximum of two extended times. -/
def emax : ETime → ETime → ETime
  | fin a, fin b => fin (Nat.max a b)
  | fin _, inf => inf
  | inf, _ => inf

instance : Max ETime := ⟨emax⟩

@[simp] theorem fin_le_fin {a b : Nat} : (fin a ≤ fin b) = (a ≤ b) := rfl

@[simp] theorem fin_le_inf' {a : Nat} : (fin a ≤ inf) = True := rfl

@[simp] theorem inf_le_fin {b : Nat} : ((inf : ETime) ≤ fin b) = False := rfl

@[simp] theorem inf_le_inf : ((inf : ETime) ≤ inf) = True := rfl

@[simp] theorem fin_add_fin {a b : Nat} : fin a + fin b = fin (a + b) := rfl

@[simp] theorem fin_add_inf {a : Nat} : fin a + inf = inf := rfl

@[simp] theorem inf_add {b : ETime} : inf + b = inf := rfl

@[simp] theorem min_fin_fin {a b : Nat} :
    min (fin a) (fin b) = fin (Nat.min a b) := rfl

@[simp] theorem min_fin_inf {a : Nat} : min (fin a) inf = fin a := rfl

@[simp] theorem min_inf_left (b : ETime) : min inf b = b := rfl

@[simp] theorem max_fin_fin {a b : Nat} :
    max (fin a) (fin b) = fin (Nat.max a b) := rfl

@[simp] theorem max_fin_inf {a : Nat} : max (fin a) inf = inf := rfl

@[simp] theorem max_inf_left {b : ETime} : max inf b = inf := rfl

theorem le_refl_e (a : ETime) : a ≤ a := by
  cases a <;> simp

theorem le_trans_e {a b c : ETime} (h₁ : a ≤ b) (h₂ : b ≤ c) : a ≤ c := by
  cases a <;> cases b <;> cases c <;> simp_all
  omega

theorem le_inf (a : ETime) : a ≤ inf := by
  cases a <;> simp

theorem add_inf (a : ETime) : a + inf = inf := by
  cases a <;> rfl

theorem le_add_right (a b : ETime) : a ≤ a + b := by
  cases a <;> cases b <;> simp

theorem min_eq_left_e {a b : ETime} (h : a ≤ b) : min a b = a := by
  cases a <;> cases b <;> simp_all

theorem le_max_left_e (a b : ETime) : a ≤ max a b := by
  cases a <;> cases b <;> simp

theorem le_max_right_e (a b : ETime) : b ≤ max a b := by
  cases a <;> cases b <;> simp

theorem max_le_e {a b c : ETime} (h₁ : a ≤ c) (h₂ : b ≤ c) : max a b ≤ c := by
  cases a <;> cases b <;> cases c <;> simp_all

end ETime

/-- Fold of `max` over a list of return instants, mirroring the instant at
which `asyncio.wait` resumes (once all wrapped tasks have finished). -/
def foldlMax (l : List ETime) (init : ETime) : ETime :=
  l.foldl (fun a b => max a b) init

theorem le_foldlMax_init (l : List ETime) (init : ETime) :
    init ≤ foldlMax l init := by
  induction l generalizing init with
  | nil => exact ETime.le_refl_e init
  | cons x xs ih =>
      exact ETime.le_trans_e (ETime.le_max_left_e init x) (ih (max init x))

theorem le_foldlMax_of_mem {l : List ETime} {x : ETime} (init : ETime)
    (h : x ∈ l) : x ≤ foldlMax l init := by
  induction l generalizing init with
  | nil => cases h
  | cons y ys ih =>
      rcases List.mem_cons.mp h with rfl | hmem
      · exact ETime.le_trans_e (ETime.le_max_right_e init x)
          (le_foldlMax_init ys (max init x))
      · exact ih (max init y) hmem

theorem foldlMax_le {l : List ETime} {b : ETime} (init : ETime)
    (hinit : init ≤ b) (h : ∀ x ∈ l, x ≤ b) : foldlMax l init ≤ b := by
  induction l generalizing init with
  | nil => exact hinit
  | cons y ys ih =>
      exact ih (max init y)
        (ETime.max_le_e hinit (h y (List.mem_cons_self y ys)))
        (fun x hx => h x (List.mem_cons_of_mem y hx))

/-- Terminal outcome of the underlying computation. -/
inductive Outcome where
  | completed (v : Int)
  | failed (e : Nat)
  | cancelled
deriving DecidableEq, Repr

/-- Exceptions that can cross the embedded interfaces. -/
inductive Exc where
  | err (e : Nat)
  | cancelledError
  | timeoutError
deriving DecidableEq, Repr

/-- Behaviour of one scheduled task, as provided by the external scheduler. -/
structure TaskSpec where
  natFinish : ETime
  natOutcome : Outcome
  cancelDelay : ETime
deriving DecidableEq, Repr

namespace TaskSpec

/-- Instant at which the task reaches a terminal state, given the earliest
instant `c` at which `cancel()` was requested (`inf` = never requested). -/
def termTime (ts : TaskSpec) (c : ETime) : ETime :=
  min ts.natFinish (c + ts.cancelDelay)

/-- Terminal outcome of the task, given the earliest cancel-request instant
`c`: the cancellation acknowledgement wins only if it strictly precedes the
natural finish. -/
def termOutcome (ts : TaskSpec) (c : ETime) : Outcome :=
  if ts.natFinish ≤ c + ts.cancelDelay then ts.natOutcome else .cancelled

end TaskSpec

/-- The context dict passed to exception handlers; `sourceTraceback` is
`none` when the key is absent (non-debug mode). -/
structure Context where
  message : String
  job : Nat
  exception : Exc
  sourceTraceback : Option (List Nat)
deriving DecidableEq, Repr

/-- Destination that actually receives a reported context: the configured
handler of the runner, or the event loop's system-wide default handler. -/
inductive Sink where
  | configured (h : Nat)
  | loopDefault
deriving DecidableEq, Repr

/-- State of a `Job` handle (`Job.__slots__` minus the loop/task plumbing:
the task's behaviour is `task`, `_explicit_wait` is `explicitWait`,
`_source_traceback` is `sourceTraceback`). -/
structure Job where
  jid : Nat
  task : TaskSpec
  explicitWait : Bool
  sourceTraceback : Option (List Nat)
deriving DecidableEq, Repr

/-- State of a `JobRunner`: `_jobs` (registry of job ids), `_timeout`
(close grace period) and `_exception_handler` (id of the configured callable,
`none` when unset). -/
structure JobRunner where
  jobs : List Nat
  timeout : ETime
  handler : Option Nat
deriving DecidableEq, Repr

namespace JobRunner

/-- Translation of `JobRunner.call_exception_handler`: dispatch a context to
the configured handler, falling back to `loop.call_exception_handler`. -/
def call_exception_handler (r : JobRunner) (ctx : Context) : Sink × Context :=
  match r.handler with
  | some h => (.configured h, ctx)
  | none => (.loopDefault, ctx)

/-- Translation of `JobRunner.get_timeout`. -/
def get_timeout (r : JobRunner) : ETime := r.timeout

/-- Translation of `JobRunner.set_timeout`. -/
def set_timeout (r : JobRunner) (t : ETime) : JobRunner :=
  { r with timeout := t }

/-- Translation of `JobRunner.get_exception_handler`. -/
def get_exception_handler (r : JobRunner) : Option Nat := r.handler

/-- Translation of `Job.__init__` via `JobRunner.exec`: the new job starts
unwaited and is added to the registry before `exec` returns. -/
def exec (r : JobRunner) (jid : Nat) (ts : TaskSpec)
    (tb : Option (List Nat)) : JobRunner × Job :=
  ({ r with jobs := jid :: r.jobs },
   { jid := jid, task := ts, explicitWait := false, sourceTraceback := tb })

end JobRunner

/-- Possible argument values of `set_exception_handler`: `None`, a callable,
or a non-callable non-`None` object. -/
inductive HandlerArg where
  | noneArg
  | callableArg (h : Nat)
  | notCallableArg (x : Nat)
deriving DecidableEq, Repr

/-- Result of `set_exception_handler`: whether a `TypeError` was raised, and
the runner state afterwards (the raise happens before the assignment, so on
error the state is unchanged). -/
structure SetHandlerResult where
  raisedTypeError : Bool
  runner : JobRunner
deriving DecidableEq, Repr

/-- Translation of `JobRunner.set_exception_handler`. -/
def JobRunner.set_exception_handler (r : JobRunner) (h : HandlerArg) :
    SetHandlerResult :=
  match h with
  | .notCallableArg _ => ⟨true, r⟩
  | .noneArg => ⟨false, { r with handler := none }⟩
  | .callableArg f => ⟨false, { r with handler := some f }⟩

/-- Result of `asyncio.Task.exception()`: raises `CancelledError` when the
task was cancelled, otherwise returns the stored exception or `None`. -/
def taskException : Outcome → Except Exc (Option Exc)
  | .cancelled => .error .cancelledError
  | .completed _ => .ok none
  | .failed e => .ok (some (.err e))

/-- Effects of running `Job._done_callback` once the task is terminal. -/
structure DoneCbResult where
  registry : List Nat
  reports : List (Sink × Context)
  managerCleared : Bool
  callbackRaised : Bool
deriving DecidableEq, Repr

/-- Translation of `Job._done_callback`: remove the job from the registry,
query `task.exception()` (which raises for a cancelled task, aborting the
callback before the backref is dropped), report a "Job processing failed"
event when an exception is present and no explicit wait happened, and
finally drop the manager backref. -/
def Job.done_callback (r : JobRunner) (j : Job) (o : Outcome) : DoneCbResult :=
  let registry := r.jobs.erase j.jid
  match taskException o with
  | .error _ => ⟨registry, [], false, true⟩
  | .ok exc =>
      match exc, j.explicitWait with
      | some e, false =>
          ⟨registry,
           [r.call_exception_handler
             ⟨"Job processing failed", j.jid, e, j.sourceTraceback⟩],
           true, false⟩
      | _, _ => ⟨registry, [], true, false⟩

/-- Translation of `Job.done`: whether the task is terminal at instant
`now`, given the earliest cancel-request instant. -/
def Job.done (j : Job) (cancelAt now : ETime) : Bool :=
  decide (j.task.termTime cancelAt ≤ now)

/-- Effects of one `Job.close()` call. -/
structure CloseResult where
  retTime : ETime
  raised : Option Exc
  reports : List (Sink × Context)
  cancelAt : ETime
deriving DecidableEq, Repr

/-- Translation of `Job.close`, invoked at instant `t` with `prevCancel` the
earliest previous cancel request (`inf` if none): request cancellation, then
await the task bounded by the runner grace period `r.timeout`; a
`CancelledError` outcome is swallowed, a grace-period timeout is reported as
"Job closing reached timeout", and any other exception of the task
propagates to the caller of `close`. -/
def Job.close (r : JobRunner) (j : Job) (prevCancel t : ETime) : CloseResult :=
  let c := min prevCancel t
  if j.task.termTime c ≤ t + r.timeout then
    match j.task.termOutcome c with
    | .failed e => ⟨max t (j.task.termTime c), some (.err e), [], c⟩
    | _ => ⟨max t (j.task.termTime c), none, [], c⟩
  else
    ⟨t + r.timeout, none,
     [r.call_exception_handler
       ⟨"Job closing reached timeout", j.jid, .timeoutError,
        j.sourceTraceback⟩], c⟩

/-- Result value of a wait call: the computation's value or an exception
raised to the caller. -/
inductive CallRes where
  | ok (v : Int)
  | exn (e : Exc)
deriving DecidableEq, Repr

/-- Effects of one `Job._wait` (or `Job.wait`) call. -/
structure WaitResult where
  retTime : ETime
  result : CallRes
  reports : List (Sink × Context)
  cancelAt : ETime
deriving DecidableEq, Repr

/-- Translation of `Job._wait`, invoked at instant `t` with deadline `d`
(`inf` = no deadline): await the task bounded by `d`; on completion within
the deadline the task's outcome is returned or re-raised; if the deadline
elapses first, `close()` runs and then the `TimeoutError` is re-raised
(unless `close()` itself raised the task's own failure). -/
def Job.wait_ (r : JobRunner) (j : Job) (prevCancel t d : ETime) : WaitResult :=
  if j.task.termTime prevCancel ≤ t + d then
    match j.task.termOutcome prevCancel with
    | .completed v =>
        ⟨max t (j.task.termTime prevCancel), .ok v, [], prevCancel⟩
    | .failed e =>
        ⟨max t (j.task.termTime prevCancel), .exn (.err e), [], prevCancel⟩
    | .cancelled =>
        ⟨max t (j.task.termTime prevCancel), .exn .cancelledError, [],
         prevCancel⟩
  else
    let cl := Job.close r j prevCancel (t + d)
    match cl.raised with
    | some e => ⟨cl.retTime, .exn e, cl.reports, cl.cancelAt⟩
    | none => ⟨cl.retTime, .exn .timeoutError, cl.reports, cl.cancelAt⟩

/-- Translation of `Job.wait`: set `_explicit_wait` and delegate to
`_wait`; returns the job state after the call together with the call's
effects. -/
def Job.wait (r : JobRunner) (j : Job) (prevCancel t d : ETime) :
    Job × WaitResult :=
  let j' := { j with explicitWait := true }
  (j', Job.wait_ r j' prevCancel t d)

/-- Effects of one `JobRunner.wait` call; `perJob` lists, for each job id of
the snapshot, the job state after the call and the per-job wait effects. -/
structure BulkWaitResult where
  retTime : ETime
  perJob : List (Nat × Job × WaitResult)
deriving DecidableEq, Repr

/-- Translation of `JobRunner.wait`: if the registry is empty return at
once, otherwise run `job._wait(timeout)` for every registered job
concurrently via `asyncio.wait` (which resumes once the slowest finishes).
Note the source calls `_wait`, not `wait`, so no job's explicit-wait flag is
touched: each job is returned unchanged. -/
def JobRunner.wait (r : JobRunner) (env : Nat → Job) (cs : Nat → ETime)
    (t d : ETime) : BulkWaitResult :=
  if r.jobs.isEmpty then ⟨t, []⟩
  else
    let per := r.jobs.map fun jid =>
      (jid, env jid, Job.wait_ r (env jid) (cs jid) t d)
    ⟨foldlMax (per.map fun p => p.2.2.retTime) t, per⟩

/-- Effects of one `JobRunner.close` call. -/
structure BulkCloseResult where
  retTime : ETime
  perJob : List (Nat × CloseResult)
deriving DecidableEq, Repr

/-- Translation of `JobRunner.close`: if the registry is empty return at
once, otherwise run `job.close()` for every registered job concurrently via
`asyncio.wait`. -/
def JobRunner.close (r : JobRunner) (env : Nat → Job) (cs : Nat → ETime)
    (t : ETime) : BulkCloseResult :=
  if r.jobs.isEmpty then ⟨t, []⟩
  else
    let per := r.jobs.map fun jid => (jid, Job.close r (env jid) (cs jid) t)
    ⟨foldlMax (per.map fun p => p.2.retTime) t, per⟩

/-- Scheduler-level events that mutate the registry: the creation path
(`JobRunner.exec`) and the completion callback (`Job._done_callback`), the
only two places in the source that touch `_jobs`. -/
inductive Ev where
  | create (jid : Nat)
  | finish (jid : Nat) (o : Outcome)
deriving DecidableEq, Repr

/-- Task behaviour placeholder for registry-only reasoning; the registry
effect of the two events does not depend on it. -/
def anyTask : TaskSpec := ⟨.inf, .completed 0, .inf⟩

/-- Registry effect of one scheduler event, through the source operations. -/
def stepRegistry (reg : List Nat) : Ev → List Nat
  | .create jid =>
      ((⟨reg, .inf, none⟩ : JobRunner).exec jid anyTask none).1.jobs
  | .finish jid o =>
      (Job.done_callback ⟨reg, .inf, none⟩ ⟨jid, anyTask, false, none⟩
        o).registry

/-- Registry contents after a trace of scheduler events, starting empty. -/
def registryAfter (tr : List Ev) : List Nat :=
  tr.foldl stepRegistry []

/-- Scheduler contract on traces, relative to the sets `c` of already
created and `f` of already finished job ids: every created id is fresh and
every completion callback fires exactly once, for a created job that has not
finished yet. -/
def validFrom (c f : List Nat) : List Ev → Bool
  | [] => true
  | .create j :: tr => (!c.contains j) && validFrom (j :: c) f tr
  | .finish j _ :: tr =>
      c.contains j && (!f.contains j) && validFrom c (j :: f) tr

/-- A trace the external scheduler can actually produce. -/
abbrev ValidTrace (tr : List Ev) : Prop := validFrom [] [] tr = true

/-- Whether the trace creates job `jid`. -/
def createdIn (tr : List Ev) (jid : Nat) : Bool :=
  tr.any fun e => match e with | .create j => jid == j | _ => false

/-- Whether the trace fires the completion callback of job `jid`. -/
def finishedIn (tr : List Ev) (jid : Nat) : Bool :=
  tr.any fun e => match e with | .finish j _ => jid == j | _ => false

theorem stepRegistry_create (reg : List Nat) (jid : Nat) :
    stepRegistry reg (.create jid) = jid :: reg := rfl

theorem stepRegistry_finish (reg : List Nat) (jid : Nat) (o : Outcome) :
    stepRegistry reg (.finish jid o) = reg.erase jid := by
  cases o <;> rfl


theorem createdIn_cons_create (tr : List Ev) (j jid : Nat) :
    createdIn (.create j :: tr) jid = true ↔
      (jid = j ∨ createdIn tr jid = true) := by
  simp [createdIn]

theorem createdIn_cons_finish (tr : List Ev) (j jid : Nat) (o : Outcome) :
    createdIn (.finish j o :: tr) jid = true ↔ createdIn tr jid = true := by
  simp [createdIn]

theorem finishedIn_cons_finish (tr : List Ev) (j jid : Nat) (o : Outcome) :
    finishedIn (.finish j o :: tr) jid = true ↔
      (jid = j ∨ finishedIn tr jid = true) := by
  simp [finishedIn]

theorem finishedIn_cons_create (tr : List Ev) (j jid : Nat) :
    finishedIn (.create j :: tr) jid = true ↔ finishedIn tr jid = true := by
  simp [finishedIn]

theorem registry_count_invariant :
    ∀ (tr : List Ev) (c f reg : List Nat),
      validFrom c f tr = true →
      (∀ x ∈ f, x ∈ c) →
      (∀ jid, reg.count jid = if jid ∈ c ∧ jid ∉ f then 1 else 0) →
      ∀ jid, (tr.foldl stepRegistry reg).count jid =
        if (createdIn tr jid = true ∨ jid ∈ c) ∧
           ¬(finishedIn tr jid = true ∨ jid ∈ f) then 1 else 0 := by
  intro tr
  induction tr with
  | nil =>
      intro c f reg _ _ hinv jid
      simpa [createdIn, finishedIn] using hinv jid
  | cons e tr ih =>
      intro c f reg hv hfc hinv jid
      cases e with
      | create j =>
          simp only [validFrom, Bool.and_eq_true, Bool.not_eq_true'] at hv
          have hjc : j ∉ c := by simpa using hv.1
          have hfc' : ∀ x ∈ f, x ∈ j :: c :=
            fun x hx => List.mem_cons_of_mem j (hfc x hx)
          have hinv' : ∀ i, (j :: reg).count i =
              if i ∈ j :: c ∧ i ∉ f then 1 else 0 := by
            intro i
            rw [List.count_cons, hinv i]
            by_cases hij : i = j
            · subst hij
              have hif : i ∉ f := fun hx => hjc (hfc i hx)
              simp [hjc, hif]
            · simp [List.mem_cons, hij, Ne.symm hij]
          have hres := ih (j :: c) f (j :: reg) hv.2 hfc' hinv' jid
          have hstep : (Ev.create j :: tr).foldl stepRegistry reg =
              tr.foldl stepRegistry (j :: reg) := rfl
          rw [hstep, hres]
          refine if_congr ?_ rfl rfl
          rw [createdIn_cons_create, finishedIn_cons_create]
          simp only [List.mem_cons]
          tauto
      | finish j o =>
          simp only [validFrom, Bool.and_eq_true, Bool.not_eq_true'] at hv
          have hjc : j ∈ c := by simpa using hv.1.1
          have hjf : j ∉ f := by simpa using hv.1.2
          have hfc' : ∀ x ∈ j :: f, x ∈ c := by
            intro x hx
            rcases List.mem_cons.mp hx with rfl | hx
            · exact hjc
            · exact hfc x hx
          have hinv' : ∀ i, (reg.erase j).count i =
              if i ∈ c ∧ i ∉ j :: f then 1 else 0 := by
            intro i
            by_cases hij : i = j
            · subst hij
              rw [List.count_erase_self, hinv i]
              simp [hjc, hjf, List.mem_cons]
            · rw [List.count_erase_of_ne hij, hinv i]
              refine if_congr ?_ rfl rfl
              simp [List.mem_cons, hij]
          have hres := ih c (j :: f) (reg.erase j) hv.2 hfc' hinv' jid
          have hstep : (Ev.finish j o :: tr).foldl stepRegistry reg =
              tr.foldl stepRegistry (reg.erase j) := by
            show tr.foldl stepRegistry (stepRegistry reg (.finish j o)) = _
            rw [stepRegistry_finish]
          rw [hstep, hres]
          refine if_congr ?_ rfl rfl
          rw [createdIn_cons_finish, finishedIn_cons_finish]
          simp only [List.mem_cons]
          tauto

/-- Claim C1: for every valid scheduler trace, a job id is in the runner's
registry exactly when it has been created (`JobRunner.exec` returned) and its
completion callback has not yet fired; the registry holds it at most once, so
registration and removal are paired exactly once and no job survives its
termination in the registry. -/
theorem C1_registry_lifecycle (tr : List Ev) (hv : ValidTrace tr) (jid : Nat) :
    (jid ∈ registryAfter tr ↔
      createdIn tr jid = true ∧ finishedIn tr jid = false) ∧
    (registryAfter tr).count jid ≤ 1 := by
  have h := registry_count_invariant tr [] [] [] hv
    (by intro x hx; cases hx) (by intro i; simp) jid
  have hreg : (registryAfter tr).count jid =
      if createdIn tr jid = true ∧ ¬ finishedIn tr jid = true then 1 else 0 := by
    simpa [registryAfter] using h
  constructor
  · rw [← List.count_pos_iff, hreg]
    by_cases h1 : createdIn tr jid = true <;>
      by_cases h2 : finishedIn tr jid = true <;> simp [h1, h2]
  · rw [hreg]
    split <;> simp

/-- Witness for C1 on a concrete trace: two jobs are spawned, the first one
terminates with a failure; job 2 is still registered, job 1 is not. -/
theorem C1_witness :
    ValidTrace [.create 1, .create 2, .finish 1 (.failed 3)] ∧
    ((2 ∈ registryAfter [.create 1, .create 2, .finish 1 (.failed 3)] ↔
        createdIn [.create 1, .create 2, .finish 1 (.failed 3)] 2 = true ∧
        finishedIn [.create 1, .create 2, .finish 1 (.failed 3)] 2 = false) ∧
      (registryAfter [.create 1, .create 2, .finish 1 (.failed 3)]).count 2 ≤ 1) :=
  ⟨by decide,
   C1_registry_lifecycle [.create 1, .create 2, .finish 1 (.failed 3)]
     (by decide) 2⟩

/-- Claim C2 (code bug): at the Cancelled terminal state the completion
callback does unregister the job and reports nothing, but `task.exception()`
raises `CancelledError` before the line `self._manager = None` is reached,
so the owner back-reference is NOT cleared, contradicting the claim that it
is cleared in every case; on the failure outcome without explicit wait the
report and the clearing do happen as claimed. -/
theorem C2_backref_not_cleared_on_cancel :
    (Job.done_callback ⟨[7], .fin 1, some 0⟩
        ⟨7, ⟨.fin 5, .completed 0, .fin 0⟩, false, none⟩ .cancelled).registry
      = [] ∧
    (Job.done_callback ⟨[7], .fin 1, some 0⟩
        ⟨7, ⟨.fin 5, .completed 0, .fin 0⟩, false, none⟩ .cancelled).reports
      = [] ∧
    (Job.done_callback ⟨[7], .fin 1, some 0⟩
        ⟨7, ⟨.fin 5, .completed 0, .fin 0⟩, false, none⟩
        .cancelled).managerCleared = false ∧
    (Job.done_callback ⟨[7], .fin 1, some 0⟩
        ⟨7, ⟨.fin 5, .completed 0, .fin 0⟩, false, none⟩
        .cancelled).callbackRaised = true ∧
    (Job.done_callback ⟨[7], .fin 1, some 0⟩
        ⟨7, ⟨.fin 5, .failed 9, .fin 0⟩, false, none⟩ (.failed 9)).reports
      = [(.configured 0,
          ⟨"Job processing failed", 7, .err 9, none⟩)] ∧
    (Job.done_callback ⟨[7], .fin 1, some 0⟩
        ⟨7, ⟨.fin 5, .failed 9, .fin 0⟩, false, none⟩
        (.failed 9)).managerCleared = true := by
  decide

/-- Claim C9: setting a non-callable, non-none handler raises `TypeError`
and leaves the whole runner (in particular the handler slot) unchanged;
setting none or a callable succeeds and stores it; with no handler
configured, reported contexts go to the loop's default handler. -/
theorem C9_set_exception_handler (r : JobRunner) (x h : Nat) (ctx : Context) :
    ((JobRunner.set_exception_handler r (.notCallableArg x)).raisedTypeError
        = true ∧
      (JobRunner.set_exception_handler r (.notCallableArg x)).runner = r) ∧
    ((JobRunner.set_exception_handler r .noneArg).raisedTypeError = false ∧
      (JobRunner.set_exception_handler r .noneArg).runner.handler = none) ∧
    ((JobRunner.set_exception_handler r (.callableArg h)).raisedTypeError
        = false ∧
      (JobRunner.set_exception_handler r (.callableArg h)).runner.handler
        = some h) ∧
    (r.handler = none →
      JobRunner.call_exception_handler r ctx = (.loopDefault, ctx)) := by
  refine ⟨⟨rfl, rfl⟩, ⟨rfl, rfl⟩, ⟨rfl, rfl⟩, ?_⟩
  intro hnone
  simp [JobRunner.call_exception_handler, hnone]

/-- Witness for C9 at a concrete runner with no configured handler. -/
theorem C9_witness :
    (((JobRunner.set_exception_handler ⟨[], .fin 1, none⟩
          (.notCallableArg 5)).raisedTypeError = true ∧
        (JobRunner.set_exception_handler ⟨[], .fin 1, none⟩
          (.notCallableArg 5)).runner = ⟨[], .fin 1, none⟩) ∧
      ((JobRunner.set_exception_handler ⟨[], .fin 1, none⟩
          .noneArg).raisedTypeError = false ∧
        (JobRunner.set_exception_handler ⟨[], .fin 1, none⟩
          .noneArg).runner.handler = none) ∧
      ((JobRunner.set_exception_handler ⟨[], .fin 1, none⟩
          (.callableArg 3)).raisedTypeError = false ∧
        (JobRunner.set_exception_handler ⟨[], .fin 1, none⟩
          (.callableArg 3)).runner.handler = some 3) ∧
      (JobRunner.handler ⟨[], .fin 1, none⟩ = none →
        JobRunner.call_exception_handler ⟨[], .fin 1, none⟩
          ⟨"Job processing failed", 0, .err 0, none⟩ =
          (.loopDefault, ⟨"Job processing failed", 0, .err 0, none⟩))) :=
  C9_set_exception_handler ⟨[], .fin 1, none⟩ 5 3
    ⟨"Job processing failed", 0, .err 0, none⟩

/-- Claim C10: `set_timeout` stores any duration unvalidated, `get_timeout`
returns exactly it, and it is the grace period governing every `close()`
started afterwards: when the task outlives the new grace period the close
returns exactly at `t + d` with one close-timeout report, otherwise close
returns as soon as the task is terminal. -/
theorem C10_set_timeout (r : JobRunner) (d : ETime) (j : Job)
    (prev t : ETime) :
    JobRunner.get_timeout (JobRunner.set_timeout r d) = d ∧
    (¬ j.task.termTime (min prev t) ≤ t + d →
      (Job.close (JobRunner.set_timeout r d) j prev t).retTime = t + d ∧
      (Job.close (JobRunner.set_timeout r d) j prev t).reports.length = 1) ∧
    (j.task.termTime (min prev t) ≤ t + d →
      (Job.close (JobRunner.set_timeout r d) j prev t).retTime =
        max t (j.task.termTime (min prev t))) := by
  refine ⟨rfl, ?_, ?_⟩
  · intro hlate
    rw [Job.close]
    simp only [JobRunner.set_timeout]
    rw [if_neg hlate]
    exact ⟨rfl, rfl⟩
  · intro hin
    rw [Job.close]
    simp only [JobRunner.set_timeout]
    rw [if_pos hin]
    cases h : j.task.termOutcome (min prev t) <;> simp

/-- Witness for C10: after `set_timeout 2`, a close on a cancel-ignoring
task returns exactly at `t + 2` with one close-timeout report. -/
theorem C10_witness :
    JobRunner.get_timeout
        (JobRunner.set_timeout ⟨[], .fin 1, some 0⟩ (.fin 2)) = .fin 2 ∧
    (Job.close (JobRunner.set_timeout ⟨[], .fin 1, some 0⟩ (.fin 2))
        ⟨1, ⟨.inf, .completed 0, .inf⟩, false, none⟩ .inf (.fin 0)).retTime
      = .fin 0 + .fin 2 ∧
    (Job.close (JobRunner.set_timeout ⟨[], .fin 1, some 0⟩ (.fin 2))
        ⟨1, ⟨.inf, .completed 0, .inf⟩, false, none⟩ .inf
        (.fin 0)).reports.length = 1 :=
  ⟨(C10_set_timeout ⟨[], .fin 1, some 0⟩ (.fin 2)
      ⟨1, ⟨.inf, .completed 0, .inf⟩, false, none⟩ .inf (.fin 0)).1,
   ((C10_set_timeout ⟨[], .fin 1, some 0⟩ (.fin 2)
      ⟨1, ⟨.inf, .completed 0, .inf⟩, false, none⟩ .inf (.fin 0)).2.1
      (by decide)).1,
   ((C10_set_timeout ⟨[], .fin 1, some 0⟩ (.fin 2)
      ⟨1, ⟨.inf, .completed 0, .inf⟩, false, none⟩ .inf (.fin 0)).2.1
      (by decide)).2⟩

/-- Claim C7: `Job.wait` with no deadline suspends exactly until the task is
terminal and then returns the task's value on success, re-raises its
exception on failure, and raises `CancelledError` on a cancelled outcome —
matching the underlying computation's outcome exactly. -/
theorem C7_wait_no_deadline (r : JobRunner) (j : Job) (t : ETime) :
    (Job.wait r j .inf t .inf).2.retTime
        = max t (j.task.termTime .inf) ∧
    (∀ v, j.task.termOutcome .inf = .completed v →
      (Job.wait r j .inf t .inf).2.result = .ok v) ∧
    (∀ e, j.task.termOutcome .inf = .failed e →
      (Job.wait r j .inf t .inf).2.result = .exn (.err e)) ∧
    (j.task.termOutcome .inf = .cancelled →
      (Job.wait r j .inf t .inf).2.result = .exn .cancelledError) ∧
    (Job.wait r j .inf t .inf).2.reports = [] := by
  have hcond : j.task.termTime .inf ≤ t + .inf := by
    rw [ETime.add_inf]
    exact ETime.le_inf _
  have hjt : ({ j with explicitWait := true } : Job).task = j.task := rfl
  rw [Job.wait]
  simp only [Job.wait_, hjt, if_pos hcond]
  refine ⟨?_, ?_, ?_, ?_, ?_⟩
  · cases h : j.task.termOutcome .inf <;> simp
  · intro v hv; rw [hv]
  · intro e he; rw [he]
  · intro hc; rw [hc]
  · cases h : j.task.termOutcome .inf <;> simp

/-- Witness for C7: a task that fails on its own at instant 4 makes a
deadline-free wait started at instant 1 return at instant 4 re-raising the
task's exception. -/
theorem C7_witness :
    ((Job.wait ⟨[], .fin 1, none⟩
        ⟨1, ⟨.fin 4, .failed 6, .inf⟩, false, none⟩ .inf (.fin 1)
        .inf).2.retTime
      = max (.fin 1) (TaskSpec.termTime ⟨.fin 4, .failed 6, .inf⟩ .inf)) ∧
    (Job.wait ⟨[], .fin 1, none⟩
        ⟨1, ⟨.fin 4, .failed 6, .inf⟩, false, none⟩ .inf (.fin 1)
        .inf).2.result = .exn (.err 6) :=
  ⟨(C7_wait_no_deadline ⟨[], .fin 1, none⟩
      ⟨1, ⟨.fin 4, .failed 6, .inf⟩, false, none⟩ (.fin 1)).1,
   (C7_wait_no_deadline ⟨[], .fin 1, none⟩
      ⟨1, ⟨.fin 4, .failed 6, .inf⟩, false, none⟩ (.fin 1)).2.2.1 6
      (by decide)⟩

/-- Claim C3 counterexample: a computation that ignores cancellation
(catches `CancelledError` and keeps running) outlives the deadline 1; the
wait raises the Timeout error after closing the job, but `job.done()` is
FALSE afterwards, refuting the claim that it always holds. -/
theorem C3_counterexample :
    (Job.wait ⟨[], .fin 1, none⟩ ⟨1, ⟨.inf, .completed 0, .inf⟩, false, none⟩
        .inf (.fin 0) (.fin 1)).2.result = .exn .timeoutError ∧
    Job.done
      (Job.wait ⟨[], .fin 1, none⟩ ⟨1, ⟨.inf, .completed 0, .inf⟩, false,
          none⟩ .inf (.fin 0) (.fin 1)).1
      (Job.wait ⟨[], .fin 1, none⟩ ⟨1, ⟨.inf, .completed 0, .inf⟩, false,
          none⟩ .inf (.fin 0) (.fin 1)).2.cancelAt
      (Job.wait ⟨[], .fin 1, none⟩ ⟨1, ⟨.inf, .completed 0, .inf⟩, false,
          none⟩ .inf (.fin 0) (.fin 1)).2.retTime = false := by
  decide

/-- Claim C3 as amended: when the computation outlives the deadline, the
wait call requests cancellation at the deadline (performs `close()`), raises
the Timeout error and reports nothing, the explicit-wait flag is permanently
set so the completion callback never reports a "Job processing failed"
event, and — provided the computation acknowledges the cancellation within
the grace period — `job.done()` is true when the wait returns. -/
theorem C3_wait_deadline (r : JobRunner) (j : Job) (t d : ETime)
    (hout : ¬ j.task.termTime .inf ≤ t + d)
    (hack : j.task.termOutcome (t + d) = .cancelled)
    (hgrace : j.task.termTime (t + d) ≤ (t + d) + r.timeout) :
    (Job.wait r j .inf t d).2.result = .exn .timeoutError ∧
    (Job.wait r j .inf t d).2.cancelAt = t + d ∧
    (Job.wait r j .inf t d).2.reports = [] ∧
    (Job.wait r j .inf t d).1.explicitWait = true ∧
    Job.done (Job.wait r j .inf t d).1 (Job.wait r j .inf t d).2.cancelAt
      (Job.wait r j .inf t d).2.retTime = true ∧
    ∀ o, (Job.done_callback r (Job.wait r j .inf t d).1 o).reports = [] := by
  have hjt : ({ j with explicitWait := true } : Job).task = j.task := rfl
  rw [Job.wait]
  simp only [Job.wait_, Job.close, Job.done, hjt, if_neg hout,
    ETime.min_inf_left, if_pos hgrace, hack]
  refine ⟨trivial, trivial, trivial, trivial, ?_, ?_⟩
  · exact decide_eq_true (ETime.le_max_right_e _ _)
  · intro o; cases o <;> rfl

/-- Witness for C3: the spec's scenario — a computation sleeping until
instant 10 that acknowledges cancellation at once, waited on with deadline
1: the caller gets the Timeout error and the job is done afterwards. -/
theorem C3_witness :
    (Job.wait ⟨[], .fin 1, none⟩
        ⟨1, ⟨.fin 10, .completed 0, .fin 0⟩, false, none⟩ .inf (.fin 0)
        (.fin 1)).2.result = .exn .timeoutError ∧
    Job.done
      (Job.wait ⟨[], .fin 1, none⟩
          ⟨1, ⟨.fin 10, .completed 0, .fin 0⟩, false, none⟩ .inf (.fin 0)
          (.fin 1)).1
      (Job.wait ⟨[], .fin 1, none⟩
          ⟨1, ⟨.fin 10, .completed 0, .fin 0⟩, false, none⟩ .inf (.fin 0)
          (.fin 1)).2.cancelAt
      (Job.wait ⟨[], .fin 1, none⟩
          ⟨1, ⟨.fin 10, .completed 0, .fin 0⟩, false, none⟩ .inf (.fin 0)
          (.fin 1)).2.retTime = true :=
  ⟨(C3_wait_deadline ⟨[], .fin 1, none⟩
      ⟨1, ⟨.fin 10, .completed 0, .fin 0⟩, false, none⟩ (.fin 0) (.fin 1)
      (by decide) (by decide) (by decide)).1,
   (C3_wait_deadline ⟨[], .fin 1, none⟩
      ⟨1, ⟨.fin 10, .completed 0, .fin 0⟩, false, none⟩ (.fin 0) (.fin 1)
      (by decide) (by decide) (by decide)).2.2.2.2.1⟩

theorem close_cancelAt (r : JobRunner) (j : Job) (prev t : ETime) :
    (Job.close r j prev t).cancelAt = min prev t := by
  rw [Job.close]
  split
  · split <;> rfl
  · rfl

theorem close_reports_length (r : JobRunner) (j : Job) (prev t : ETime) :
    (Job.close r j prev t).reports.length ≤ 1 := by
  rw [Job.close]
  split
  · split <;> simp
  · simp

theorem close_raised_err (r : JobRunner) (j : Job) (prev t : ETime) :
    ∀ e, (Job.close r j prev t).raised = some e →
      ∃ k, e = Exc.err k ∧ j.task.termOutcome (min prev t) = .failed k ∧
        j.task.termTime (min prev t) ≤ t + r.timeout := by
  intro e
  rw [Job.close]
  by_cases h : j.task.termTime (min prev t) ≤ t + r.timeout
  · simp only [if_pos h]
    cases houtc : j.task.termOutcome (min prev t) with
    | completed v => intro habs; simp at habs
    | failed k =>
        intro he
        simp only [CloseResult.mk.injEq] at he
        exact ⟨k, (Option.some_inj.mp he).symm, rfl, h⟩
    | cancelled => intro habs; simp at habs
  · simp only [if_neg h]
    intro habs; simp at habs

/-- Claim C4 counterexample: closing a job whose computation already ended
with its own failure re-raises that failure from `close()` (only
`CancelledError` and `TimeoutError` are caught), refuting "close() never
raises any failure to its caller". -/
theorem C4_counterexample :
    (Job.close ⟨[], .fin 1, none⟩
        ⟨1, ⟨.fin 0, .failed 7, .fin 0⟩, false, none⟩ .inf
        (.fin 1)).raised = some (.err 7) := by
  decide

/-- Claim C4 as amended: `close()` requests cancellation (the effective
cancel instant becomes `min prev t`) and waits bounded by the owner's grace
period; a cancellation acknowledgement within the grace period is success
with no report, as is normal completion; if the grace period elapses first,
close returns at `t + grace` reporting one "Job closing reached timeout"
event carrying the diagnostic snapshot, raising nothing; close raises only
when the computation itself terminates with a non-cancellation failure
within the grace window, which then propagates to the caller. -/
theorem C4_close (r : JobRunner) (j : Job) (prev t : ETime) :
    (Job.close r j prev t).cancelAt = min prev t ∧
    (j.task.termTime (min prev t) ≤ t + r.timeout →
      j.task.termOutcome (min prev t) = .cancelled →
      (Job.close r j prev t).raised = none ∧
        (Job.close r j prev t).reports = []) ∧
    (∀ v, j.task.termTime (min prev t) ≤ t + r.timeout →
      j.task.termOutcome (min prev t) = .completed v →
      (Job.close r j prev t).raised = none ∧
        (Job.close r j prev t).reports = []) ∧
    (¬ j.task.termTime (min prev t) ≤ t + r.timeout →
      (Job.close r j prev t).raised = none ∧
      (Job.close r j prev t).retTime = t + r.timeout ∧
      (Job.close r j prev t).reports =
        [r.call_exception_handler
          ⟨"Job closing reached timeout", j.jid, .timeoutError,
           j.sourceTraceback⟩]) ∧
    (∀ e, (Job.close r j prev t).raised = some e →
      ∃ k, e = Exc.err k ∧ j.task.termOutcome (min prev t) = .failed k ∧
        j.task.termTime (min prev t) ≤ t + r.timeout) := by
  refine ⟨close_cancelAt r j prev t, ?_, ?_, ?_, close_raised_err r j prev t⟩
  · intro h hc
    rw [Job.close]
    simp only [if_pos h, hc]
    exact ⟨trivial, trivial⟩
  · intro v h hc
    rw [Job.close]
    simp only [if_pos h, hc]
    exact ⟨trivial, trivial⟩
  · intro h
    rw [Job.close]
    simp only [if_neg h]
    exact ⟨trivial, trivial, trivial⟩

/-- Witness for C4: closing a cancel-ignoring job in debug mode reports the
close-timeout event with the captured snapshot to the configured handler,
raising nothing. -/
theorem C4_witness :
    ¬ TaskSpec.termTime ⟨.inf, .completed 0, .inf⟩
        (min .inf (.fin 0)) ≤ .fin 0 + JobRunner.timeout ⟨[], .fin 1, some 4⟩ ∧
    ((Job.close ⟨[], .fin 1, some 4⟩
        ⟨2, ⟨.inf, .completed 0, .inf⟩, false, some [1, 2]⟩ .inf
        (.fin 0)).raised = none ∧
      (Job.close ⟨[], .fin 1, some 4⟩
        ⟨2, ⟨.inf, .completed 0, .inf⟩, false, some [1, 2]⟩ .inf
        (.fin 0)).retTime = .fin 0 + JobRunner.timeout ⟨[], .fin 1, some 4⟩ ∧
      (Job.close ⟨[], .fin 1, some 4⟩
        ⟨2, ⟨.inf, .completed 0, .inf⟩, false, some [1, 2]⟩ .inf
        (.fin 0)).reports =
        [JobRunner.call_exception_handler ⟨[], .fin 1, some 4⟩
          ⟨"Job closing reached timeout", 2, .timeoutError, some [1, 2]⟩]) :=
  ⟨by decide,
   (C4_close ⟨[], .fin 1, some 4⟩
      ⟨2, ⟨.inf, .completed 0, .inf⟩, false, some [1, 2]⟩ .inf
      (.fin 0)).2.2.2.1 (by decide)⟩

/-- Claim C5 counterexample: on a computation that never acknowledges
cancellation, two sequential `close()` calls each report their own
"Job closing reached timeout" event — two events in total, refuting
"never double-reports". -/
theorem C5_counterexample :
    ((Job.close ⟨[], .fin 1, none⟩
        ⟨1, ⟨.inf, .completed 0, .inf⟩, false, none⟩ .inf
        (.fin 0)).reports.length = 1) ∧
    ((Job.close ⟨[], .fin 1, none⟩
        ⟨1, ⟨.inf, .completed 0, .inf⟩, false, none⟩
        (Job.close ⟨[], .fin 1, none⟩
          ⟨1, ⟨.inf, .completed 0, .inf⟩, false, none⟩ .inf
          (.fin 0)).cancelAt
        (Job.close ⟨[], .fin 1, none⟩
          ⟨1, ⟨.inf, .completed 0, .inf⟩, false, none⟩ .inf
          (.fin 0)).retTime).reports.length = 1) := by
  decide

/-- Claim C5 as amended: a second `close()` is a no-op on the cancellation
request (the effective cancel instant is unchanged), each invocation
reports at most one event, and an invocation raises only by propagating the
computation's own non-cancellation failure; two sequential invocations can
however each report a close-timeout event when the computation is still
running at the end of each grace period. -/
theorem C5_close_twice (r : JobRunner) (j : Job) (t₁ t₂ : ETime)
    (h : t₁ ≤ t₂) :
    (Job.close r j (Job.close r j .inf t₁).cancelAt t₂).cancelAt =
      (Job.close r j .inf t₁).cancelAt ∧
    (Job.close r j .inf t₁).reports.length ≤ 1 ∧
    (Job.close r j (Job.close r j .inf t₁).cancelAt t₂).reports.length ≤ 1 ∧
    (∀ e,
      (Job.close r j (Job.close r j .inf t₁).cancelAt t₂).raised = some e →
      ∃ k, e = Exc.err k) := by
  have h1 : (Job.close r j .inf t₁).cancelAt = t₁ := by
    rw [close_cancelAt, ETime.min_inf_left]
  refine ⟨?_, close_reports_length r j .inf t₁,
    close_reports_length r j _ t₂, ?_⟩
  · rw [close_cancelAt, h1, ETime.min_eq_left_e h]
  · intro e he
    obtain ⟨k, hk, _, _⟩ := close_raised_err r j _ t₂ e he
    exact ⟨k, hk⟩

/-- Witness for C5: two sequential closes at instants 0 and 1 on a
cancel-ignoring job leave the cancellation instant at 0 and never report
more than one event per call. -/
theorem C5_witness :
    (Job.close ⟨[], .fin 1, none⟩
        ⟨1, ⟨.inf, .completed 0, .inf⟩, false, none⟩
        (Job.close ⟨[], .fin 1, none⟩
          ⟨1, ⟨.inf, .completed 0, .inf⟩, false, none⟩ .inf
          (.fin 0)).cancelAt (.fin 1)).cancelAt =
      (Job.close ⟨[], .fin 1, none⟩
        ⟨1, ⟨.inf, .completed 0, .inf⟩, false, none⟩ .inf
        (.fin 0)).cancelAt ∧
    (Job.close ⟨[], .fin 1, none⟩
        ⟨1, ⟨.inf, .completed 0, .inf⟩, false, none⟩ .inf
        (.fin 0)).reports.length ≤ 1 :=
  ⟨(C5_close_twice ⟨[], .fin 1, none⟩
      ⟨1, ⟨.inf, .completed 0, .inf⟩, false, none⟩ (.fin 0) (.fin 1)
      (by decide)).1,
   (C5_close_twice ⟨[], .fin 1, none⟩
      ⟨1, ⟨.inf, .completed 0, .inf⟩, false, none⟩ (.fin 0) (.fin 1)
      (by decide)).2.1⟩

theorem close_retTime_le (r : JobRunner) (j : Job) (prev t : ETime) :
    (Job.close r j prev t).retTime ≤ t + r.timeout := by
  rw [Job.close]
  by_cases h : j.task.termTime (min prev t) ≤ t + r.timeout
  · simp only [if_pos h]
    cases houtc : j.task.termOutcome (min prev t) <;>
      exact ETime.max_le_e (ETime.le_add_right t r.timeout) h
  · simp only [if_neg h]
    exact ETime.le_refl_e _

theorem termTime_le_close_retTime (r : JobRunner) (j : Job) (prev t : ETime)
    (h : j.task.termTime (min prev t) ≤ t + r.timeout) :
    j.task.termTime (min prev t) ≤ (Job.close r j prev t).retTime := by
  rw [Job.close]
  simp only [if_pos h]
  cases houtc : j.task.termOutcome (min prev t) <;>
    exact ETime.le_max_right_e t _

/-- Claim C6 counterexample: a failing job is bulk-waited on via
`JobRunner.wait`; afterwards its explicit-wait flag is still false (the
source calls `_wait`, not `wait`), so the completion callback still reports
the failure — refuting the claim that the bulk wait sets the flag. -/
theorem C6_counterexample :
    (∀ p ∈ (JobRunner.wait ⟨[1], .fin 1, some 0⟩
        (fun _ => ⟨1, ⟨.fin 5, .failed 9, .inf⟩, false, none⟩)
        (fun _ => .inf) (.fin 0) .inf).perJob,
      p.2.1.explicitWait = false) ∧
    (Job.done_callback ⟨[1], .fin 1, some 0⟩
        ⟨1, ⟨.fin 5, .failed 9, .inf⟩, false, none⟩
        (.failed 9)).reports.length = 1 := by
  decide

/-- Claim C6 as amended: `JobRunner.wait(deadline)` returns immediately on
an empty registry; otherwise it snapshots the registered jobs and runs the
internal `Job._wait` — which does NOT set the explicit-wait flag — on each,
every job bounded independently by the same deadline and started at the
same instant, resuming once the slowest per-job wait returns. -/
theorem C6_bulk_wait (r : JobRunner) (env : Nat → Job) (cs : Nat → ETime)
    (t d : ETime) :
    (r.jobs.isEmpty = true → JobRunner.wait r env cs t d = ⟨t, []⟩) ∧
    (r.jobs.isEmpty = false →
      (JobRunner.wait r env cs t d).perJob =
        r.jobs.map (fun jid => (jid, env jid,
          Job.wait_ r (env jid) (cs jid) t d)) ∧
      (JobRunner.wait r env cs t d).retTime =
        foldlMax (r.jobs.map
          (fun jid => (Job.wait_ r (env jid) (cs jid) t d).retTime)) t) ∧
    (∀ p ∈ (JobRunner.wait r env cs t d).perJob,
      p.2.1.explicitWait = (env p.1).explicitWait ∧
      p.2.2 = Job.wait_ r (env p.1) (cs p.1) t d) := by
  refine ⟨?_, ?_, ?_⟩
  · intro h
    rw [JobRunner.wait, if_pos h]
  · intro h
    have hne : ¬ (r.jobs.isEmpty = true) := by simp [h]
    rw [JobRunner.wait, if_neg hne]
    refine ⟨rfl, ?_⟩
    simp only [List.map_map]
    rfl
  · intro p hp
    rw [JobRunner.wait] at hp
    by_cases h : r.jobs.isEmpty
    · rw [if_pos h] at hp
      exact absurd hp (List.not_mem_nil p)
    · rw [if_neg h] at hp
      obtain ⟨jid, hjid, rfl⟩ := List.mem_map.mp hp
      exact ⟨rfl, rfl⟩

/-- Witness for C6 on a nonempty registry of two jobs. -/
theorem C6_witness :
    (JobRunner.wait ⟨[1, 2], .fin 1, none⟩
        (fun i => ⟨i, ⟨.fin 5, .completed 3, .fin 0⟩, false, none⟩)
        (fun _ => .inf) (.fin 0) (.fin 9)).perJob =
      [1, 2].map (fun jid => (jid,
        (⟨jid, ⟨.fin 5, .completed 3, .fin 0⟩, false, none⟩ : Job),
        Job.wait_ ⟨[1, 2], .fin 1, none⟩
          ⟨jid, ⟨.fin 5, .completed 3, .fin 0⟩, false, none⟩ .inf (.fin 0)
          (.fin 9))) :=
  ((C6_bulk_wait ⟨[1, 2], .fin 1, none⟩
      (fun i => ⟨i, ⟨.fin 5, .completed 3, .fin 0⟩, false, none⟩)
      (fun _ => .inf) (.fin 0) (.fin 9)).2.1 (by decide)).1

/-- Claim C8 counterexample: one registered job that ignores cancellation:
`JobRunner.close` returns at the grace bound (instant 1) but the job is
still not terminal then, refuting "after it returns all N jobs are in a
terminal state". -/
theorem C8_counterexample :
    (JobRunner.close ⟨[1], .fin 1, none⟩
        (fun _ => ⟨1, ⟨.inf, .completed 0, .inf⟩, false, none⟩)
        (fun _ => .inf) (.fin 0)).retTime = .fin 1 ∧
    Job.done ⟨1, ⟨.inf, .completed 0, .inf⟩, false, none⟩
      (min .inf (.fin 0))
      (JobRunner.close ⟨[1], .fin 1, none⟩
        (fun _ => ⟨1, ⟨.inf, .completed 0, .inf⟩, false, none⟩)
        (fun _ => .inf) (.fin 0)).retTime = false := by
  decide

/-- Claim C8 as amended: `JobRunner.close` launches every per-job `close()`
concurrently at the same instant, so it returns no later than `t` plus one
grace period (not the sum over jobs); every job whose computation becomes
terminal within the grace period of the cancellation — in particular every
cancellation-responsive job — is terminal when it returns, while a job that
outlives its grace period may still be running (only reported, per §5 of
the spec). -/
theorem C8_bulk_close (r : JobRunner) (env : Nat → Job) (cs : Nat → ETime)
    (t : ETime) :
    (JobRunner.close r env cs t).retTime ≤ t + r.timeout ∧
    (r.jobs.isEmpty = false →
      (JobRunner.close r env cs t).perJob =
        r.jobs.map fun jid => (jid, Job.close r (env jid) (cs jid) t)) ∧
    (∀ jid ∈ r.jobs,
      (env jid).task.termTime (min (cs jid) t) ≤ t + r.timeout →
      Job.done (env jid) (min (cs jid) t)
        (JobRunner.close r env cs t).retTime = true) := by
  refine ⟨?_, ?_, ?_⟩
  · by_cases h : r.jobs.isEmpty
    · rw [JobRunner.close, if_pos h]
      exact ETime.le_add_right t r.timeout
    · rw [JobRunner.close, if_neg h]
      refine foldlMax_le t (ETime.le_add_right t r.timeout) ?_
      intro x hx
      rw [List.map_map] at hx
      obtain ⟨jid, _, rfl⟩ := List.mem_map.mp hx
      exact close_retTime_le r (env jid) (cs jid) t
  · intro h
    have hne : ¬ (r.jobs.isEmpty = true) := by simp [h]
    rw [JobRunner.close, if_neg hne]
  · intro jid hjid hT
    have hne : ¬ (r.jobs.isEmpty = true) := by
      intro he
      rw [List.isEmpty_iff.mp he] at hjid
      exact absurd hjid (List.not_mem_nil jid)
    rw [JobRunner.close, if_neg hne]
    have hmem : (Job.close r (env jid) (cs jid) t).retTime ∈
        ((r.jobs.map fun i => (i, Job.close r (env i) (cs i) t)).map
          fun p => p.2.retTime) := by
      rw [List.map_map]
      exact List.mem_map.mpr ⟨jid, hjid, rfl⟩
    rw [Job.done]
    exact decide_eq_true (ETime.le_trans_e
      (termTime_le_close_retTime r (env jid) (cs jid) t hT)
      (le_foldlMax_of_mem t hmem))

/-- Witness for C8: one cancellation-responsive sleeper; the bulk close
returns within the grace period and the job is terminal afterwards. -/
theorem C8_witness :
    (JobRunner.close ⟨[1], .fin 2, none⟩
        (fun _ => ⟨1, ⟨.fin 10, .completed 0, .fin 0⟩, false, none⟩)
        (fun _ => .inf) (.fin 0)).retTime ≤ .fin 0 + .fin 2 ∧
    Job.done ⟨1, ⟨.fin 10, .completed 0, .fin 0⟩, false, none⟩
      (min .inf (.fin 0))
      (JobRunner.close ⟨[1], .fin 2, none⟩
        (fun _ => ⟨1, ⟨.fin 10, .completed 0, .fin 0⟩, false, none⟩)
        (fun _ => .inf) (.fin 0)).retTime = true :=
  ⟨(C8_bulk_close ⟨[1], .fin 2, none⟩
      (fun _ => ⟨1, ⟨.fin 10, .completed 0, .fin 0⟩, false, none⟩)
      (fun _ => .inf) (.fin 0)).1,
   (C8_bulk_close ⟨[1], .fin 2, none⟩
      (fun _ => ⟨1, ⟨.fin 10, .completed 0, .fin 0⟩, false, none⟩)
      (fun _ => .inf) (.fin 0)).2.2 1 (by decide) (by decide)⟩
